import Mathlib

set_option autoImplicit false

/-!
# Verification of the PDF embedder backend (`backend/app.py`)

A shallow embedding of the attachment extractor, image extractor/reconstructor,
overlay compositor, embed request handler and ephemeral artifact store of
`backend/app.py`, together with proofs of the behavioural properties stated in
the design document.

Embedding conventions:
* Byte strings are `List Nat`.
* Python `dict` values are association lists in insertion order; assignment
  `d[k] = v` is `dinsert` (update in place when the key exists, append otherwise).
* Every place where the Python code can raise inside one of its `try`/`except`
  blocks is a constructor of the input type (`Option`, or a dedicated `raises`
  constructor), so that the handlers' control flow is total by construction.
* Python floats are modelled as rationals (`ℚ`); the decimal literals of the
  source (`0.30`, `0.35`) are exact rationals.
* Calls into external libraries (PIL decoding/encoding, pypdf's writer) are
  abstract parameters or are explicitly marked `Modelled from the spec:`.
-/

namespace PdfEmbedder

/-- Byte strings (`bytes`) are lists of byte values. -/
abbrev Bytes := List Nat

/-- Python dict assignment `m[k] = v` on an insertion-ordered dict: if the key
is present its value is replaced in place, otherwise the pair is appended. -/
def dinsert (m : List (String × Bytes)) (k : String) (v : Bytes) :
    List (String × Bytes) :=
  if m.any (fun p => p.1 == k) then
    m.map (fun p => if p.1 == k then (k, v) else p)
  else m ++ [(k, v)]

/-! ## Attachment extraction (`_read_attachments`, app.py lines 76-146) -/

/-- A stream object reachable from a file specification's `/EF` dictionary.
`truthy` models the Python truthiness test `if st:`; `data` is the result of
`st.get_data()`, `none` meaning that the call raises. -/
structure StreamObj where
  truthy : Bool
  data : Option Bytes
deriving DecidableEq

/-- The `/EF` dictionary of a file specification: the five variant keys the
source tries, each possibly absent. -/
structure EFDict where
  f : Option StreamObj
  uf : Option StreamObj
  dos : Option StreamObj
  mac : Option StreamObj
  unix : Option StreamObj
deriving DecidableEq

/-- Result of evaluating `filespec.get("/EF") or {}` inside the per-entry
`try`: the access can raise (`raises`, e.g. the array element is not
dictionary-like), return nothing / a falsy value (`ef none`, which `or {}`
turns into an empty dictionary), or return the `/EF` dictionary. -/
inductive SpecEF where
  | raises : SpecEF
  | ef : Option EFDict → SpecEF
deriving DecidableEq

/-- One element of the embedded-files `/Names` array.  `asText` is `str(·)`
(`none` meaning `str` raises, which `_safe_text` maps to a generic label);
`filespec` is the element viewed as a file specification. -/
structure ArrElem where
  asText : Option String
  filespec : SpecEF
deriving DecidableEq

/-- Outcome of the walk `trailer → /Root → /Names → /EmbeddedFiles → /Names`
(app.py lines 91-105).  `raises`: some step raised, the outer `except` is
taken and the fallback accessor is consulted.  `missing`: some step returned
a falsy value, so the code `return`s the empty dict immediately (without the
fallback).  `arr`: the names array was reached and is truthy. -/
inductive NTab where
  | raises : NTab
  | missing : NTab
  | arr : List ArrElem → NTab
deriving DecidableEq

/-- One value of the fallback `reader.attachments` mapping (app.py lines
131-144): either directly `bytes`/`bytearray` (`raw`), or an indexable object
whose first element is converted with `bytes(v[0])` (`wrapped`, `none` when
that conversion raises). -/
inductive FbVal where
  | raw : Bytes → FbVal
  | wrapped : Option Bytes → FbVal
deriving DecidableEq

/-- The per-object colour-space entry `/ColorSpace` before stringification:
an atom that stringifies to a name, or an atom whose `str` raises. -/
inductive PdfAtom where
  | name : String → PdfAtom
  | bad : PdfAtom
deriving DecidableEq

/-- The `/ColorSpace` value: a single object or an array of objects. -/
inductive CSVal where
  | atom : PdfAtom → CSVal
  | arr : List PdfAtom → CSVal
deriving DecidableEq

/-- The `/Filter` value of a stream: a single name or an array of names
(already stringified, as the source does with `str(x)`). -/
inductive FilterVal where
  | single : String → FilterVal
  | list : List String → FilterVal
deriving DecidableEq

/-- One image XObject dictionary, with exactly the keys the source reads.
`stream` is `o.get_data()`; `none` means the call raises, upon which the
source `continue`s to the next resource. -/
structure XObj where
  subtype : Option String
  filter : Option FilterVal
  width : Option Int
  height : Option Int
  bpc : Option Int
  colorSpace : Option CSVal
  stream : Option Bytes
deriving DecidableEq

/-- One page: its `/Resources` → `/XObject` dictionary as an ordered list of
(name, object) entries.  `none` for the whole dictionary models
absent/falsy `/XObject` (or a raising page access, which `continue`s the same
way); `none` for one entry models `obj.get_object()` raising. -/
structure Page where
  xobjects : Option (List (String × Option XObj))
deriving DecidableEq

/-- The parsed document as the handlers see it: the embedded-files name-table
walk outcome, the fallback attachments surface (`getattr(reader,
"attachments", None)`, `none` when absent, raising, not a dict, or empty
— all of which contribute no entries), and the page list. -/
structure Reader where
  tab : NTab
  fb : Option (List (String × FbVal))
  pages : List Page
deriving DecidableEq

/-- `_safe_text` (app.py lines 84-88): `str(obj)`, falling back to
`"attachment.bin"` when stringification raises. -/
def _safe_text (o : Option String) : String := o.getD "attachment.bin"

/-- The fixed priority order of variant keys tried inside `/EF`
(app.py line 119). -/
def attachKeys : List String := ["/F", "/UF", "/DOS", "/Mac", "/Unix"]

/-- `ef.get(key)` for the five variant keys. -/
def efGet (d : EFDict) (k : String) : Option StreamObj :=
  if k = "/F" then d.f
  else if k = "/UF" then d.uf
  else if k = "/DOS" then d.dos
  else if k = "/Mac" then d.mac
  else if k = "/Unix" then d.unix
  else none

/-- The key loop of app.py lines 119-123: try the keys in order; `if st:`
skips a present but falsy stream; the first truthy stream ends the loop. -/
def resolveStream (d : EFDict) : List String → Option StreamObj
  | [] => none
  | k :: ks =>
    match efGet d k with
    | some st => if st.truthy then some st else resolveStream d ks
    | none => resolveStream d ks

/-- What one file-specification element contributes: the decoded bytes of the
first truthy variant stream, or nothing when the `/EF` access raises, the
dictionary is absent, no truthy stream exists, or `get_data()` raises
(the exception aborts the key loop before any insertion). -/
def entryPayload (b : ArrElem) : Option Bytes :=
  match b.filespec with
  | .raises => none
  | .ef none => none
  | .ef (some d) =>
    match resolveStream d attachKeys with
    | some st => st.data
    | none => none

/-- The display name bound for an entry (app.py line 114). -/
def entryName (a : ArrElem) : String := _safe_text a.asText

/-- The pair loop of app.py lines 107-125: consume the names array two
elements at a time; a trailing odd element raises `IndexError`, which the
per-entry `except` turns into `continue` (ending the loop). -/
def readPairs (m : List (String × Bytes)) : List ArrElem → List (String × Bytes)
  | [] => m
  | [_] => m
  | a :: b :: rest =>
    match entryPayload b with
    | some bs => readPairs (dinsert m (entryName a) bs) rest
    | none => readPairs m rest

/-- The fallback normalization loop of app.py lines 133-142. -/
def readFallback (m : List (String × Bytes)) :
    List (String × FbVal) → List (String × Bytes)
  | [] => m
  | (k, .raw bs) :: rest => readFallback (dinsert m k bs) rest
  | (k, .wrapped (some bs)) :: rest => readFallback (dinsert m k bs) rest
  | (_, .wrapped none) :: rest => readFallback m rest

/-- `_read_attachments` (app.py lines 76-146).  A falsy step in the walk
`return`s the empty mapping directly (no fallback); a raising step reaches
the fallback with an empty primary mapping; an empty names array is falsy
and also `return`s directly; otherwise the pair loop runs and the fallback
is consulted only when it produced nothing. -/
def _read_attachments (r : Reader) : List (String × Bytes) :=
  match r.tab with
  | .missing => []
  | .raises =>
    match r.fb with
    | some l => readFallback [] l
    | none => []
  | .arr a =>
    match a with
    | [] => []
    | _ =>
      let m := readPairs [] a
      if m.isEmpty then
        match r.fb with
        | some l => readFallback [] l
        | none => []
      else m

/-- Modelled from the spec: the document library's attachment write path
(pypdf `PdfWriter.add_attachment`, external to this repository — only its
call site at app.py line 402 is in the source).  Per the design document's
"Attachment Extractor's write-path counterpart", for a writer holding the
source document's pages and no pre-existing embedded-files table, it records
the payload under the standard name table `root → Names → EmbeddedFiles →
Names` as the single pair (name, file specification) whose `/EF` dictionary
carries the stream under `/F`.  The name element itself is a text string
(not dictionary-like, hence `SpecEF.raises` for its unused file-spec view). -/
def add_attachment (pages : List Page) (name : String) (bs : Bytes) : Reader :=
  { tab := NTab.arr
      [⟨some name, SpecEF.raises⟩,
       ⟨none, SpecEF.ef (some ⟨some ⟨true, some bs⟩, none, none, none, none⟩)⟩],
    fb := none,
    pages := pages }

/-! ## Image extraction (`_extract_images_from_pdf`, app.py lines 206-354) -/

/-- A decoded in-memory raster image (PIL `Image`): mode tag, dimensions and
pixel buffer.  Pixel-level transcoding (`convert`) is external PIL code; the
claims in scope never inspect pixel contents, so conversions retag the mode
and keep the buffer. -/
structure PILImage where
  mode : String
  w : Int
  h : Int
  px : Bytes
deriving DecidableEq

/-- `Image.frombytes(mode, (w, h), data)` on an exactly-sized buffer. -/
def frombytes (mode : String) (w h : Int) (bs : Bytes) : PILImage :=
  ⟨mode, w, h, bs⟩

/-- `img.convert(m)`: external PIL pixel transcoding, modelled as a mode
retag (no claim in scope inspects pixel contents). -/
def convertMode (img : PILImage) (m : String) : PILImage :=
  { img with mode := m }

/-- Modelled from the spec: PIL `Image.frombytes` for 1-bit mode raises when
the buffer holds fewer than `ceil(w/8)*h` row-aligned bytes (external
library behaviour; no claim in scope depends on the exact bound). -/
def frombytes1Ok (w h : Int) (bs : Bytes) : Bool :=
  decide ((bs.length : Int) ≥ ((w + 7) / 8) * h)

/-- One extracted image record (the `rec` dict of app.py lines 278-286). -/
structure ImgRec where
  id : String
  page : Nat
  name : String
  original_mime : String
  original_bytes : Bytes
  preview_mime : Option String
  preview_bytes : Option Bytes
deriving DecidableEq

/-- Python `int(v or d)` for an optional integer-valued entry: absent or
falsy (zero) gives the default. -/
def pyIntOr (v : Option Int) (d : Int) : Int :=
  match v with
  | none => d
  | some x => if x = 0 then d else x

/-- `str(name).strip("/")`: remove leading and trailing slash characters. -/
def pyStripSlash (s : String) : String :=
  String.mk (((s.data.dropWhile (fun c => c == '/')).reverse.dropWhile
    (fun c => c == '/')).reverse)

/-- `_filters` (app.py lines 216-222). -/
def _filters : Option FilterVal → List String
  | none => []
  | some (.single s) => [s]
  | some (.list l) => l

/-- `str` of a colour-space atom; `none` when it raises, which the
surrounding `try` turns into the `"/DeviceRGB"` default. -/
def strAtom : PdfAtom → Option String
  | .name s => some s
  | .bad => none

/-- `_colorspace` (app.py lines 224-233): absent gives `"/DeviceRGB"`; a
nonempty array gives `str` of its head; an empty array fails the
`isinstance(cs, list) and cs` test and stringifies as a whole (`"[]"`); a
raising stringification gives `"/DeviceRGB"`. -/
def _colorspace : Option CSVal → String
  | none => "/DeviceRGB"
  | some (.arr (a :: _)) => (strAtom a).getD "/DeviceRGB"
  | some (.arr []) => "[]"
  | some (.atom a) => (strAtom a).getD "/DeviceRGB"

/-- `_pil_mode_from_cs` (app.py lines 235-240). -/
def _pil_mode_from_cs (cs : String) : String :=
  if cs = "/DeviceGray" then "L"
  else if cs = "/DeviceCMYK" then "CMYK"
  else "RGB"

/-- The channel count of app.py line 300:
`1 if mode == "L" else (4 if mode == "CMYK" else 3)`. -/
def channelsOf (mode : String) : Int :=
  if mode = "L" then 1 else if mode = "CMYK" then 4 else 3

/-- The body of the inner resource loop (app.py lines 254-347) for one
already-dereferenced XObject: `none` means the source `continue`s without
counting the object (wrong subtype, or `get_data()` raised); `some rec`
is the record appended to the result.  `pilOpen` abstracts
`Image.open(...)` followed by a PNG re-encode (external PIL; `none` when
either step raises); `pngEnc` abstracts PNG serialization of a
reconstructed raster. -/
def processXObj (pilOpen : Bytes → Option PILImage) (pngEnc : PILImage → Bytes)
    (pageIndex seen : Nat) (xname : String) (o : XObj) : Option ImgRec :=
  if o.subtype ≠ some "/Image" then none else
  match o.stream with
  | none => none
  | some data =>
    let filters := _filters o.filter
    let w := pyIntOr o.width 0
    let h := pyIntOr o.height 0
    let bpc := pyIntOr o.bpc 8
    let cs_name := _colorspace o.colorSpace
    let mode := _pil_mode_from_cs cs_name
    let om_oe : String × String :=
      if filters.contains "/DCTDecode" then ("image/jpeg", "jpg")
      else if filters.contains "/JPXDecode" then ("image/jp2", "jp2")
      else if filters.contains "/CCITTFaxDecode" then ("image/tiff", "tif")
      else ("application/octet-stream", "bin")
    let img_id :=
      "p" ++ toString (pageIndex + 1) ++ "_" ++ toString (seen + 1) ++ "_" ++
        pyStripSlash xname
    let rec0 : ImgRec :=
      { id := img_id, page := pageIndex + 1, name := img_id ++ "." ++ om_oe.2,
        original_mime := om_oe.1, original_bytes := data,
        preview_mime := none, preview_bytes := none }
    let rec1 : ImgRec :=
      if om_oe.1 = "image/jpeg" then
        { rec0 with preview_mime := some "image/jpeg",
                    preview_bytes := some data }
      else if filters.contains "/FlateDecode" ∨ filters.length = 0 then
        -- reconstruction; any exception inside this branch is `pass`ed,
        -- leaving the record previewless (including the `NameError` on `img`
        -- when the dimension/bit-depth guard fails)
        if w > 0 ∧ h > 0 ∧ (bpc = 1 ∨ bpc = 8) then
          if bpc = 1 then
            if frombytes1Ok w h data then
              { rec0 with preview_mime := some "image/png",
                          preview_bytes :=
                            some (pngEnc (convertMode (frombytes "1" w h data) "L")) }
            else rec0
          else
            let channels := channelsOf mode
            let expected := w * h * channels
            if (data.length : Int) ≥ expected then
              let img := frombytes mode w h (data.take expected.toNat)
              let img2 := if mode = "CMYK" then convertMode img "RGB" else img
              { rec0 with preview_mime := some "image/png",
                          preview_bytes := some (pngEnc img2) }
            else rec0
        else rec0
      else if om_oe.1 = "image/jp2" then
        match pilOpen data with
        | some img => { rec0 with preview_mime := some "image/png",
                                  preview_bytes := some (pngEnc img) }
        | none => rec0
      else
        match pilOpen data with
        | some img => { rec0 with preview_mime := some "image/png",
                                  preview_bytes := some (pngEnc img) }
        | none => rec0
    let rec2 : ImgRec :=
      if rec1.preview_mime = some "image/png" ∧
          rec1.original_mime = "application/octet-stream" then
        { rec1 with name := img_id ++ ".png", original_mime := "image/png",
                    original_bytes :=
                      match rec1.preview_bytes with
                      | some bs => if bs = [] then rec1.original_bytes else bs
                      | none => rec1.original_bytes }
      else rec1
    some rec2

/-- The inner resource loop (app.py lines 251-350) with its cap check on
entry to every iteration, threading the `seen` counter and the accumulated
record list. -/
def scanXObjs (pilOpen : Bytes → Option PILImage) (pngEnc : PILImage → Bytes)
    (pageIndex maxImages : Nat) :
    List (String × Option XObj) → Nat → List ImgRec → Nat × List ImgRec
  | [], seen, acc => (seen, acc)
  | (nm, ob) :: rest, seen, acc =>
    if seen ≥ maxImages then (seen, acc)
    else
      match ob with
      | none => scanXObjs pilOpen pngEnc pageIndex maxImages rest seen acc
      | some o =>
        match processXObj pilOpen pngEnc pageIndex seen nm o with
        | none => scanXObjs pilOpen pngEnc pageIndex maxImages rest seen acc
        | some r =>
          scanXObjs pilOpen pngEnc pageIndex maxImages rest (seen + 1) (acc ++ [r])

/-- The page loop (app.py lines 242-352) with its cap check on entry. -/
def scanPages (pilOpen : Bytes → Option PILImage) (pngEnc : PILImage → Bytes)
    (maxImages : Nat) : List Page → Nat → Nat → List ImgRec → List ImgRec
  | [], _, _, acc => acc
  | p :: rest, pageIndex, seen, acc =>
    if seen ≥ maxImages then acc
    else
      match p.xobjects with
      | none => scanPages pilOpen pngEnc maxImages rest (pageIndex + 1) seen acc
      | some xs =>
        let sa := scanXObjs pilOpen pngEnc pageIndex maxImages xs seen acc
        scanPages pilOpen pngEnc maxImages rest (pageIndex + 1) sa.1 sa.2

/-- `_extract_images_from_pdf` (app.py lines 206-354). -/
def _extract_images_from_pdf (pilOpen : Bytes → Option PILImage)
    (pngEnc : PILImage → Bytes) (r : Reader) (maxImages : Nat) : List ImgRec :=
  scanPages pilOpen pngEnc maxImages r.pages 0 0 []

/-- The call with the default `max_images=50` (app.py line 206, used at
line 537). -/
def _extract_images_from_pdf_default (pilOpen : Bytes → Option PILImage)
    (pngEnc : PILImage → Bytes) (r : Reader) : List ImgRec :=
  _extract_images_from_pdf pilOpen pngEnc r 50

/-! ## Overlay compositor (`make_image_overlay_pdf`, app.py lines 46-73) -/

/-- The placement box computed by `make_image_overlay_pdf`: draw origin
(lower-left corner, reportlab coordinates) and drawn width/height. -/
structure Box where
  x : ℚ
  y : ℚ
  w : ℚ
  h : ℚ
deriving DecidableEq

/-- The geometry of `make_image_overlay_pdf` (app.py lines 46-67): target
width 30% of page width, height from the image's aspect ratio; if that
height exceeds 35% of page height, rescale from the height bound; 18-unit
margin inset from the corner selected by `placement`, any unknown placement
falling back to top-right.  Floats are modelled as exact rationals. -/
def make_image_overlay_pdf_box (imgW imgH pageW pageH : ℚ)
    (placement : String) : Box :=
  let target_w := pageW * (0.30 : ℚ)
  let scale := target_w / imgW
  let target_h := imgH * scale
  let wh : ℚ × ℚ :=
    if target_h > pageH * (0.35 : ℚ) then
      let scale2 := (pageH * (0.35 : ℚ)) / imgH
      (imgW * scale2, imgH * scale2)
    else (target_w, target_h)
  let margin : ℚ := 18
  let xy : ℚ × ℚ :=
    if placement = "top-left" then (margin, pageH - margin - wh.2)
    else if placement = "bottom-left" then (margin, margin)
    else if placement = "bottom-right" then (pageW - margin - wh.1, margin)
    else (pageW - margin - wh.1, pageH - margin - wh.2)
  ⟨xy.1, xy.2, wh.1, wh.2⟩

/-! ## The embed request handler (`embed`, app.py lines 374-424) -/

/-- `MAX_UPLOAD_MB` with its default environment value `"50"`. -/
def MAX_UPLOAD_MB : Int := 50

/-- `MAX_BYTES` (app.py line 23). -/
def MAX_BYTES : Int := MAX_UPLOAD_MB * 1024 * 1024

/-- `_too_large` (app.py lines 30-31). -/
def _too_large (contentLength : Option Int) : Bool :=
  match contentLength with
  | none => false
  | some n => decide (n > MAX_BYTES)

/-- An embed request as the handler reads it.  `attachRaises` models
`writer.add_attachment` raising with the given message; `stampRaises`
models the overlay construction / page merge raising; `outputBytes` is the
serialized writer output (external pypdf, opaque here). -/
structure EmbedReq where
  contentLength : Option Int
  hasPdf : Bool
  hasExtra : Bool
  pdfBytes : Bytes
  extraBytes : Bytes
  extraFilename : Option String
  extraMimetype : Option String
  placement : Option String
  numPages : Nat
  attachRaises : Option String
  stampRaises : Option String
  outputBytes : Bytes
deriving DecidableEq

/-- A handler response: a JSON error body with its HTTP status, or a file
download. -/
inductive Resp where
  | errJson : Nat → String → Resp
  | fileResp : Bytes → String → String → Resp
deriving DecidableEq

/-- Python `str.lower()` restricted to ASCII case folding (the handler only
compares ASCII suffixes with it). -/
def pyLower (s : String) : String := String.mk (s.data.map Char.toLower)

/-- Python `str.endswith(t)`. -/
def pyEndsWith (s t : String) : Bool := t.data.isSuffixOf s.data

/-- Python `str.startswith(t)`. -/
def pyStartsWith (s t : String) : Bool := t.data.isPrefixOf s.data

/-- The image-name test of app.py line 408. -/
def isImageName (nameLower : String) (mimetype : String) : Bool :=
  pyEndsWith nameLower ".png" || pyEndsWith nameLower ".jpg" ||
  pyEndsWith nameLower ".jpeg" || pyEndsWith nameLower ".webp" ||
  pyEndsWith nameLower ".gif" || pyStartsWith mimetype "image/"

/-- `extra_file.filename or "attachment.bin"` (app.py line 387): an absent or
empty (falsy) filename falls back to the generic label. -/
def extra_name (req : EmbedReq) : String :=
  match req.extraFilename with
  | some s => if s = "" then "attachment.bin" else s
  | none => "attachment.bin"

/-- `extra_file.mimetype or ""` (app.py line 408). -/
def extra_mimetype (req : EmbedReq) : String :=
  match req.extraMimetype with
  | some m => m
  | none => ""

/-- The `embed` handler (app.py lines 374-424): input checks, the attachment
step (total failure response when it raises), then — only when the extra
file looks like an image and the document has a page — the stamping step,
whose failure produces the distinct partial-failure response. -/
def embed (req : EmbedReq) : Resp :=
  if _too_large req.contentLength then
    .errJson 413 ("Upload too large (max " ++ toString MAX_UPLOAD_MB ++ " MB).")
  else if !(req.hasPdf && req.hasExtra) then
    .errJson 400 "Missing required files: pdf and extra"
  else if req.pdfBytes = [] then .errJson 400 "PDF is empty"
  else if req.extraBytes = [] then .errJson 400 "Extra file is empty"
  else
    match req.attachRaises with
    | some e => .errJson 500 ("Failed to embed attachment: " ++ e)
    | none =>
      let is_image := isImageName (pyLower (extra_name req)) (extra_mimetype req)
      if is_image && decide (req.numPages > 0) then
        match req.stampRaises with
        | some e =>
          .errJson 500 ("Embedded attachment but failed to stamp image: " ++ e)
        | none => .fileResp req.outputBytes "updated.pdf" "application/pdf"
      else .fileResp req.outputBytes "updated.pdf" "application/pdf"

/-! ## Ephemeral artifact store (`STORE` / `_cleanup_store`, app.py 25-38) -/

/-- `STORE_TTL_SECONDS` with its default environment value `"900"`. -/
def STORE_TTL_SECONDS : ℚ := 900

/-- One stored bundle (the value shape documented at app.py line 25).
`ts` is optional only because the sweep reads it with
`v.get("ts", now)`. -/
structure Bundle where
  ts : Option ℚ
  pdf_bytes : Bytes
  attachments : List (String × Bytes)
  images : List ImgRec
deriving DecidableEq

/-- The expiry test of app.py line 36: `(now - v.get("ts", now)) > TTL`. -/
def expired (ttl now : ℚ) (b : Bundle) : Bool :=
  decide (now - b.ts.getD now > ttl)

/-- `_cleanup_store` (app.py lines 34-38): collect the expired keys, then pop
them — equivalently, keep exactly the non-expired entries in order. -/
def _cleanup_store (ttl now : ℚ) (store : List (String × Bundle)) :
    List (String × Bundle) :=
  store.filter (fun p => !expired ttl now p.2)

/-- `STORE[token]`-style lookup (keys of a Python dict are unique). -/
def sget (store : List (String × Bundle)) (k : String) : Option Bundle :=
  (store.find? (fun p => p.1 == k)).map (fun p => p.2)

/-! ## Concrete instances used by counterexamples and witnesses -/

def pilOpenNone : Bytes → Option PILImage := fun _ => none

def pngEncPx : PILImage → Bytes := fun i => i.px

def cexShortImg : XObj :=
  { subtype := some "/Image", filter := some (.single "/FlateDecode"),
    width := some 1, height := some 1, bpc := some 8,
    colorSpace := some (.atom (.name "/DeviceRGB")), stream := some [7] }

def cexShortReader : Reader :=
  { tab := .missing, fb := none,
    pages := [⟨some [("Im0", some cexShortImg)]⟩] }

def flattenPairs : List (ArrElem × ArrElem) → List ArrElem
  | [] => []
  | (a, b) :: rest => a :: b :: flattenPairs rest

def cexDupStream1 : StreamObj := ⟨true, some [1]⟩

def cexDupStream2 : StreamObj := ⟨true, some [2]⟩

def cexDupEntries : List (ArrElem × ArrElem) :=
  [(⟨some "a", SpecEF.raises⟩,
    ⟨none, SpecEF.ef (some ⟨some cexDupStream1, none, none, none, none⟩)⟩),
   (⟨some "a", SpecEF.raises⟩,
    ⟨none, SpecEF.ef (some ⟨some cexDupStream2, none, none, none, none⟩)⟩)]

def cexDupReader : Reader :=
  { tab := NTab.arr (flattenPairs cexDupEntries), fb := none, pages := [] }

def variants (d : EFDict) : List (Option StreamObj) :=
  [d.f, d.uf, d.dos, d.mac, d.unix]

def wShortImg : XObj :=
  { subtype := some "/Image", filter := some (.list ["/FlateDecode"]),
    width := some 1, height := some 1, bpc := none,
    colorSpace := some (.atom .bad), stream := some [1, 2] }

def wEntries : List (ArrElem × ArrElem) :=
  [(⟨some "a.txt", SpecEF.raises⟩,
    ⟨none, SpecEF.ef (some ⟨none, some ⟨true, some [10]⟩, none, none, none⟩)⟩),
   (⟨none, SpecEF.raises⟩,
    ⟨none, SpecEF.ef (some ⟨some ⟨true, some [20, 21]⟩, none, none, none, none⟩)⟩)]

def wReader3 : Reader := ⟨NTab.arr (flattenPairs wEntries), none, []⟩

def wEmbedReq : EmbedReq :=
  { contentLength := some 1000, hasPdf := true, hasExtra := true,
    pdfBytes := [1], extraBytes := [2], extraFilename := some "logo.png",
    extraMimetype := some "image/png", placement := some "bottom-left",
    numPages := 1, attachRaises := none, stampRaises := some "boom",
    outputBytes := [] }

def wEFDict : EFDict :=
  ⟨none, none, some ⟨true, some [5]⟩, none, some ⟨true, some [6]⟩⟩

def wBundleOld : Bundle := ⟨some 0, [], [], []⟩

def wBundleNew : Bundle := ⟨some 500, [1], [("a", [2])], []⟩

def wStore : List (String × Bundle) := [("t1", wBundleOld), ("t2", wBundleNew)]

def wRGBImg : XObj :=
  { subtype := some "/Image", filter := none, width := some 2, height := some 1,
    bpc := some 8, colorSpace := none, stream := some [1, 2, 3, 4, 5, 6] }

/-! ## Theorems -/

/-- Claim C5: embedding bytes `bs` as an attachment named `"x.bin"` into a
document and then extracting attachments from the result yields exactly the
mapping `x.bin ↦ bs` (the write path is modelled from the spec, see
`add_attachment`). -/
theorem attachment_roundtrip (pages : List Page) (bs : Bytes) :
    _read_attachments (add_attachment pages "x.bin" bs) = [("x.bin", bs)] := by
  rfl

/-- Helper: the inner resource loop preserves the invariant that the
accumulated record count equals the `seen` counter and never exceeds the cap. -/
lemma scanXObjs_inv (pilOpen : Bytes → Option PILImage) (pngEnc : PILImage → Bytes)
    (pageIndex maxImages : Nat) :
    ∀ (xs : List (String × Option XObj)) (seen : Nat) (acc : List ImgRec),
      acc.length = seen → seen ≤ maxImages →
      (scanXObjs pilOpen pngEnc pageIndex maxImages xs seen acc).2.length
        = (scanXObjs pilOpen pngEnc pageIndex maxImages xs seen acc).1 ∧
      (scanXObjs pilOpen pngEnc pageIndex maxImages xs seen acc).1 ≤ maxImages := by
  intro xs
  induction xs with
  | nil => intro seen acc h1 h2; exact ⟨h1, h2⟩
  | cons hd tl ih =>
    intro seen acc h1 h2
    obtain ⟨nm, ob⟩ := hd
    by_cases hge : seen ≥ maxImages
    · simp only [scanXObjs, if_pos hge]; exact ⟨h1, h2⟩
    · cases ob with
      | none => simp only [scanXObjs, if_neg hge]; exact ih seen acc h1 h2
      | some o =>
        cases hpo : processXObj pilOpen pngEnc pageIndex seen nm o with
        | none =>
          simp only [scanXObjs, if_neg hge, hpo]
          exact ih seen acc h1 h2
        | some r =>
          simp only [scanXObjs, if_neg hge, hpo]
          exact ih (seen + 1) (acc ++ [r]) (by simp [h1]) (by omega)

/-- Helper: the page loop keeps the record count within the cap. -/
lemma scanPages_inv (pilOpen : Bytes → Option PILImage) (pngEnc : PILImage → Bytes)
    (maxImages : Nat) :
    ∀ (ps : List Page) (pageIndex seen : Nat) (acc : List ImgRec),
      acc.length = seen → seen ≤ maxImages →
      (scanPages pilOpen pngEnc maxImages ps pageIndex seen acc).length ≤ maxImages := by
  intro ps
  induction ps with
  | nil => intro pageIndex seen acc h1 h2; simpa [scanPages, h1] using h2
  | cons p rest ih =>
    intro pageIndex seen acc h1 h2
    obtain ⟨xo⟩ := p
    by_cases hge : seen ≥ maxImages
    · simp only [scanPages, if_pos hge]; omega
    · cases xo with
      | none => simp only [scanPages, if_neg hge]; exact ih (pageIndex + 1) seen acc h1 h2
      | some xs =>
        simp only [scanPages, if_neg hge]
        have h := scanXObjs_inv pilOpen pngEnc pageIndex maxImages xs seen acc h1 h2
        exact ih (pageIndex + 1) _ _ h.1 h.2

/-- Claim C2: for every document and every `max_images` bound (default 50),
`_extract_images_from_pdf` returns at most `max_images` records, scanning
pages in order and contributing nothing further once the cap is reached. -/
theorem extract_images_cap (pilOpen : Bytes → Option PILImage)
    (pngEnc : PILImage → Bytes) (r : Reader) (maxImages : Nat) :
    (_extract_images_from_pdf pilOpen pngEnc r maxImages).length ≤ maxImages ∧
    (∀ (ps : List Page) (pageIndex : Nat) (acc : List ImgRec),
        scanPages pilOpen pngEnc maxImages ps pageIndex maxImages acc = acc) ∧
    _extract_images_from_pdf_default pilOpen pngEnc r
      = _extract_images_from_pdf pilOpen pngEnc r 50 := by
  refine ⟨scanPages_inv pilOpen pngEnc maxImages r.pages 0 0 [] rfl (Nat.zero_le _), ?_, rfl⟩
  intro ps pageIndex acc
  cases ps <;> simp [scanPages]

/-- Counterexample to claim C1 as stated: a FlateDecode image XObject with 8
bits per component and payload length 1 < 1*1*3 is NOT dropped from the
result set — `_extract_images_from_pdf` still returns one record for it. -/
theorem short_payload_record_kept_cex :
    _filters cexShortImg.filter = ["/FlateDecode"] ∧
    pyIntOr cexShortImg.bpc 8 = 8 ∧
    ((cexShortImg.stream.getD []).length : Int) <
      pyIntOr cexShortImg.width 0 * pyIntOr cexShortImg.height 0 *
        channelsOf (_pil_mode_from_cs (_colorspace cexShortImg.colorSpace)) ∧
    (_extract_images_from_pdf pilOpenNone pngEncPx cexShortReader 50).length = 1 := by
  decide

/-- Helper: a Flate-or-unfiltered 8-bit image object whose payload is shorter
than `width*height*channels` yields a record with no preview, which the scan
loop appends and counts. -/
lemma processXObj_short_flate (pilOpen : Bytes → Option PILImage)
    (pngEnc : PILImage → Bytes) (pageIndex seen : Nat) (xname : String)
    (o : XObj) (data : Bytes)
    (hsub : o.subtype = some "/Image")
    (hstream : o.stream = some data)
    (hfil : _filters o.filter = ["/FlateDecode"] ∨ _filters o.filter = [])
    (hbpc : pyIntOr o.bpc 8 = 8)
    (hlen : (data.length : Int) <
      pyIntOr o.width 0 * pyIntOr o.height 0 *
        channelsOf (_pil_mode_from_cs (_colorspace o.colorSpace))) :
    ∃ r, processXObj pilOpen pngEnc pageIndex seen xname o = some r ∧
      r.preview_mime = none ∧ r.preview_bytes = none ∧
      r.original_bytes = data ∧
      ∀ (maxImages : Nat) (rest : List (String × Option XObj)) (acc : List ImgRec),
        seen < maxImages →
        scanXObjs pilOpen pngEnc pageIndex maxImages ((xname, some o) :: rest) seen acc
          = scanXObjs pilOpen pngEnc pageIndex maxImages rest (seen + 1) (acc ++ [r]) := by
  have hnot : ¬ ((data.length : Int) ≥
      pyIntOr o.width 0 * pyIntOr o.height 0 *
        channelsOf (_pil_mode_from_cs (_colorspace o.colorSpace))) := not_le.mpr hlen
  have key : processXObj pilOpen pngEnc pageIndex seen xname o =
      some { id := "p" ++ toString (pageIndex + 1) ++ "_" ++ toString (seen + 1) ++ "_" ++
                pyStripSlash xname,
             page := pageIndex + 1,
             name := "p" ++ toString (pageIndex + 1) ++ "_" ++ toString (seen + 1) ++ "_" ++
                pyStripSlash xname ++ "." ++ "bin",
             original_mime := "application/octet-stream",
             original_bytes := data,
             preview_mime := none, preview_bytes := none } := by
    rcases hfil with hf | hf <;>
    · simp only [processXObj, hsub, hstream, hf, hbpc]
      simp only [List.contains_cons, List.contains_nil, List.length_cons, List.length_nil,
        beq_iff_eq, String.reduceEq, Int.reduceEq, Bool.or_false, Bool.false_or,
        if_false, if_true, reduceCtorEq, and_false, false_and, and_true, true_and,
        or_false, false_or, or_true, ne_eq]
      rw [if_neg hnot]
      simp only [ite_self, reduceCtorEq, false_and, not_true_eq_false, if_false]
  refine ⟨_, key, rfl, rfl, rfl, ?_⟩
  intro maxImages rest acc hlt
  simp only [scanXObjs, if_neg (Nat.not_le.mpr hlt), key]

/-- Claim C1 (amended): for every image XObject whose filter chain is
FlateDecode or empty, with 8 bits per component and payload length strictly
less than `width*height*channels(color-space)`, reconstruction is skipped but
the image is NOT dropped: its record still appears in the output (appended
and counted by the scan loop) with no preview bytes, and no exception
escapes (the embedding is total). -/
theorem short_payload_no_preview (pilOpen : Bytes → Option PILImage)
    (pngEnc : PILImage → Bytes) (pageIndex seen : Nat) (xname : String)
    (o : XObj) (data : Bytes)
    (hsub : o.subtype = some "/Image")
    (hstream : o.stream = some data)
    (hfil : _filters o.filter = ["/FlateDecode"] ∨ _filters o.filter = [])
    (hbpc : pyIntOr o.bpc 8 = 8)
    (hlen : (data.length : Int) <
      pyIntOr o.width 0 * pyIntOr o.height 0 *
        channelsOf (_pil_mode_from_cs (_colorspace o.colorSpace))) :
    ∃ r, processXObj pilOpen pngEnc pageIndex seen xname o = some r ∧
      r.preview_mime = none ∧ r.preview_bytes = none ∧
      r.original_bytes = data ∧
      ∀ (maxImages : Nat) (rest : List (String × Option XObj)) (acc : List ImgRec),
        seen < maxImages →
        scanXObjs pilOpen pngEnc pageIndex maxImages ((xname, some o) :: rest) seen acc
          = scanXObjs pilOpen pngEnc pageIndex maxImages rest (seen + 1) (acc ++ [r]) :=
  processXObj_short_flate pilOpen pngEnc pageIndex seen xname o data
    hsub hstream hfil hbpc hlen

/-- Claim C10: an image XObject with no `/ColorSpace` entry (or one whose
stringification fails) is treated as DeviceRGB, so 8-bit reconstruction uses
3 channels and produces a preview exactly when the payload holds at least
`width*height*3` bytes. -/
theorem default_colorspace_rgb (pilOpen : Bytes → Option PILImage)
    (pngEnc : PILImage → Bytes) (pageIndex seen : Nat) (xname : String)
    (o : XObj) (data : Bytes)
    (hcs : o.colorSpace = none ∨ o.colorSpace = some (.atom .bad))
    (hsub : o.subtype = some "/Image")
    (hstream : o.stream = some data)
    (hfil : _filters o.filter = ["/FlateDecode"] ∨ _filters o.filter = [])
    (hbpc : pyIntOr o.bpc 8 = 8)
    (hw : pyIntOr o.width 0 > 0) (hh : pyIntOr o.height 0 > 0) :
    _colorspace o.colorSpace = "/DeviceRGB" ∧
    channelsOf (_pil_mode_from_cs (_colorspace o.colorSpace)) = 3 ∧
    ∃ r, processXObj pilOpen pngEnc pageIndex seen xname o = some r ∧
      (r.preview_mime = some "image/png" ↔
        (data.length : Int) ≥ pyIntOr o.width 0 * pyIntOr o.height 0 * 3) := by
  have hcseq : _colorspace o.colorSpace = "/DeviceRGB" := by
    rcases hcs with h | h <;> rw [h] <;> rfl
  have hch : channelsOf (_pil_mode_from_cs (_colorspace o.colorSpace)) = 3 := by
    rw [hcseq]; rfl
  refine ⟨hcseq, hch, ?_⟩
  by_cases hge : (data.length : Int) ≥ pyIntOr o.width 0 * pyIntOr o.height 0 * 3
  · rcases hfil with hf | hf <;>
    · simp only [processXObj, hsub, hstream, hf, hbpc, hcseq]
      simp only [List.contains_cons, List.contains_nil, List.length_cons, List.length_nil,
        beq_iff_eq, String.reduceEq, Int.reduceEq, Bool.or_false, Bool.false_or,
        if_false, if_true, reduceCtorEq, and_false, false_and, and_true, true_and,
        or_false, false_or, or_true, ne_eq, not_true_eq_false,
        _pil_mode_from_cs, channelsOf, hw, hh, hge, Option.some.injEq, and_self]
      exact ⟨_, rfl, by simp [hge]⟩
  · have hlen : (data.length : Int) <
        pyIntOr o.width 0 * pyIntOr o.height 0 *
          channelsOf (_pil_mode_from_cs (_colorspace o.colorSpace)) := by
      rw [hch]; exact not_le.mp hge
    obtain ⟨r, hr, hpm, _, _, _⟩ :=
      processXObj_short_flate pilOpen pngEnc pageIndex seen xname o data
        hsub hstream hfil hbpc hlen
    exact ⟨r, hr, by rw [hpm]; exact iff_of_false (by simp) hge⟩

/-- Helper: inserting a fresh key into the mapping appends the pair. -/
lemma dinsert_of_not_mem (m : List (String × Bytes)) (k : String) (v : Bytes)
    (h : ∀ p ∈ m, p.1 ≠ k) : dinsert m k v = m ++ [(k, v)] := by
  have hfalse : m.any (fun p => p.1 == k) = false := by
    rw [List.any_eq_false]
    intro p hp
    simpa using h p hp
  simp [dinsert, hfalse]

/-- Helper: on a flat pair array whose entries all resolve and whose names
are pairwise distinct, the pair loop appends one mapping entry per pair, in
encounter order. -/
lemma readPairs_resolved :
    ∀ (es : List (ArrElem × ArrElem)) (m : List (String × Bytes)),
      (∀ e ∈ es, (entryPayload e.2).isSome = true) →
      (∀ e ∈ es, ∀ p ∈ m, p.1 ≠ entryName e.1) →
      ((es.map fun e => entryName e.1).Nodup) →
      readPairs m (flattenPairs es)
        = m ++ es.map (fun e => (entryName e.1, (entryPayload e.2).getD [])) := by
  intro es
  induction es with
  | nil => intro m _ _ _; simp [flattenPairs, readPairs]
  | cons e rest ih =>
    intro m hres hdisj hnd
    obtain ⟨a, b⟩ := e
    obtain ⟨bs, hbs⟩ : ∃ bs, entryPayload b = some bs := by
      have h1 := hres (a, b) (by simp)
      cases hpb : entryPayload b
      · rw [hpb] at h1; simp at h1
      · exact ⟨_, rfl⟩
    simp only [flattenPairs, readPairs, hbs]
    rw [dinsert_of_not_mem m (entryName a) bs (fun p hp => hdisj (a, b) (by simp) p hp)]
    rw [ih (m ++ [(entryName a, bs)])]
    · simp [hbs]
    · intro e he
      exact hres e (List.mem_cons_of_mem _ he)
    · intro e he p hp
      rcases List.mem_append.mp hp with hm | hs
      · exact hdisj e (List.mem_cons_of_mem _ he) p hm
      · have hpk : p = (entryName a, bs) := by simpa using hs
        subst hpk
        simp only [List.map_cons, List.nodup_cons] at hnd
        intro hcontra
        apply hnd.1
        rw [show entryName a = entryName e.1 from hcontra]
        exact List.mem_map_of_mem (fun e => entryName e.1) he
    · simp only [List.map_cons, List.nodup_cons] at hnd
      exact hnd.2

/-- Claim C3 (amended): for a document whose embedded-files name table holds
`N` (name, file-specification) entries, each with a resolvable embedded
stream and with pairwise-distinct resolved names, `_read_attachments`
returns exactly `N` entries whose payloads are byte-identical to the
streams' decoded data. (Without distinctness the mapping collapses
duplicate names — see the counterexample.) -/
theorem attachments_exact_extraction (r : Reader) (es : List (ArrElem × ArrElem))
    (htab : r.tab = NTab.arr (flattenPairs es))
    (hres : ∀ e ∈ es, (entryPayload e.2).isSome = true)
    (hnd : (es.map fun e => entryName e.1).Nodup) :
    _read_attachments r
      = es.map (fun e => (entryName e.1, (entryPayload e.2).getD [])) ∧
    (_read_attachments r).length = es.length := by
  have hmain : _read_attachments r
      = es.map (fun e => (entryName e.1, (entryPayload e.2).getD [])) := by
    cases es with
    | nil => simp only [_read_attachments, htab, flattenPairs, List.map_nil]
    | cons e rest =>
      obtain ⟨a, b⟩ := e
      have hrp := readPairs_resolved ((a, b) :: rest) [] hres (by simp) hnd
      simp only [_read_attachments, htab, flattenPairs] at hrp ⊢
      rw [hrp]
      simp
  refine ⟨hmain, ?_⟩
  rw [hmain, List.length_map]

/-- Counterexample to claim C3 as stated: two resolvable entries sharing the
name `"a"` produce a mapping with one entry, not two. -/
theorem attachments_duplicate_name_cex :
    cexDupEntries.length = 2 ∧
    (∀ e ∈ cexDupEntries, (entryPayload e.2).isSome = true) ∧
    (_read_attachments cexDupReader).length = 1 := by
  decide

/-- Claim C7: for each (name, file-specification) pair the extractor tries
the variant keys in the fixed order /F, /UF, /DOS, /Mac, /Unix, binds the
filename to the decoded bytes of the first stream present (ignoring later
variants), and consumes entries in encounter order. -/
theorem variant_priority_first_wins (d : EFDict)
    (htr : ∀ s ∈ (variants d).filterMap id, s.truthy = true) :
    resolveStream d attachKeys = ((variants d).filterMap id).head? ∧
    ∀ (m : List (String × Bytes)) (a b : ArrElem) (rest : List ArrElem)
      (st : StreamObj) (bs : Bytes),
      b.filespec = SpecEF.ef (some d) →
      ((variants d).filterMap id).head? = some st →
      st.data = some bs →
      readPairs m (a :: b :: rest) = readPairs (dinsert m (entryName a) bs) rest := by
  have hres : resolveStream d attachKeys = ((variants d).filterMap id).head? := by
    obtain ⟨f, uf, dos, mac, unix⟩ := d
    simp only [variants] at htr ⊢
    cases f <;> cases uf <;> cases dos <;> cases mac <;> cases unix <;>
      simp_all [resolveStream, attachKeys, efGet]
  refine ⟨hres, ?_⟩
  intro m a b rest st bs hb hhead hdata
  simp only [readPairs, entryPayload, hb, hres, hhead, hdata]

/-- Claim C8: `_read_attachments` never raises — it is a total function of
the (failure-annotated) document graph: a malformed entry is skipped while
the remaining entries are still processed, a dangling odd element ends the
loop, a missing name table yields the empty mapping, and a raising walk
falls back to the library accessor surface. -/
theorem attachments_never_fail :
    (∀ (m : List (String × Bytes)) (a b : ArrElem) (rest : List ArrElem),
        b.filespec = SpecEF.raises →
        readPairs m (a :: b :: rest) = readPairs m rest) ∧
    (∀ (m : List (String × Bytes)) (a : ArrElem), readPairs m [a] = m) ∧
    (∀ r : Reader, r.tab = NTab.missing → _read_attachments r = []) ∧
    (∀ (r : Reader) (l : List (String × FbVal)),
        r.tab = NTab.raises → r.fb = some l →
        _read_attachments r = readFallback [] l) := by
  refine ⟨?_, ?_, ?_, ?_⟩
  · intro m a b rest hb
    simp only [readPairs, entryPayload, hb]
  · intro m a
    rfl
  · intro r h
    simp only [_read_attachments, h]
  · intro r l h1 h2
    simp only [_read_attachments, h1, h2]

/-- Helper: store lookup at a matching head entry. -/
lemma sget_cons_pos (p : String × Bundle) (rest : List (String × Bundle))
    (tok : String) (h : (p.1 == tok) = true) :
    sget (p :: rest) tok = some p.2 := by
  simp only [sget, List.find?_cons, h]
  rfl

/-- Helper: store lookup skips a non-matching head entry. -/
lemma sget_cons_neg (p : String × Bundle) (rest : List (String × Bundle))
    (tok : String) (h : (p.1 == tok) = false) :
    sget (p :: rest) tok = sget rest tok := by
  simp only [sget, List.find?_cons, h]

/-- Helper: looking up a token absent from the key list yields nothing. -/
lemma sget_eq_none_of_not_mem :
    ∀ (store : List (String × Bundle)) (tok : String),
      tok ∉ store.map Prod.fst → sget store tok = none := by
  intro store
  induction store with
  | nil => intro tok _; rfl
  | cons p rest ih =>
    intro tok h
    simp only [List.map_cons, List.mem_cons, not_or] at h
    have hne : (p.1 == tok) = false := by
      simp only [beq_eq_false_iff_ne, ne_eq]
      exact fun e => h.1 e.symm
    rw [sget_cons_neg p rest tok hne]
    exact ih tok h.2

/-- Helper: after the sweep, a lookup finds a stored bundle exactly when
that bundle had not expired, and finds it unchanged. -/
lemma cleanup_sget (ttl now : ℚ) :
    ∀ (store : List (String × Bundle)) (tok : String) (b : Bundle),
      (store.map Prod.fst).Nodup →
      sget store tok = some b →
      sget (_cleanup_store ttl now store) tok
        = if expired ttl now b then none else some b := by
  intro store
  induction store with
  | nil => intro tok b _ hget; simp [sget] at hget
  | cons p rest ih =>
    intro tok b hnd hget
    simp only [List.map_cons, List.nodup_cons] at hnd
    by_cases hk : (p.1 == tok) = true
    · have hb : p.2 = b := by
        have := hget
        rw [sget_cons_pos p rest tok hk] at this
        exact Option.some.inj this
      by_cases hexp : expired ttl now b = true
      · have hpe : (!expired ttl now p.2) = false := by
          rw [hb, hexp]; rfl
        have hfil : _cleanup_store ttl now (p :: rest) = _cleanup_store ttl now rest := by
          simp only [_cleanup_store, List.filter_cons, hpe, Bool.false_eq_true, if_false]
        rw [hfil, if_pos hexp]
        apply sget_eq_none_of_not_mem
        intro hmem
        apply hnd.1
        have htok : p.1 = tok := by simpa using hk
        rw [htok]
        obtain ⟨q, hq, hqe⟩ := List.mem_map.mp hmem
        rw [← hqe]
        exact List.mem_map_of_mem Prod.fst (List.mem_of_mem_filter hq)
      · have hpe : (!expired ttl now p.2) = true := by
          rw [hb]
          simp only [Bool.not_eq_true'] at *
          rw [Bool.eq_false_iff] at *
          simpa using hexp
        have hfil : _cleanup_store ttl now (p :: rest)
            = p :: _cleanup_store ttl now rest := by
          simp only [_cleanup_store, List.filter_cons, hpe, if_true]
        rw [hfil, if_neg hexp, sget_cons_pos p _ tok hk, hb]
    · have hk2 : (p.1 == tok) = false := by
        have := hk
        revert this
        cases p.1 == tok <;> simp
      have hget2 : sget rest tok = some b := by
        rw [sget_cons_neg p rest tok hk2] at hget
        exact hget
      have ihh := ih tok b hnd.2 hget2
      by_cases hpe : (!expired ttl now p.2) = true
      · have hfil : _cleanup_store ttl now (p :: rest)
            = p :: _cleanup_store ttl now rest := by
          simp only [_cleanup_store, List.filter_cons, hpe, if_true]
        rw [hfil, sget_cons_neg p _ tok hk2]
        exact ihh
      · have hpe2 : (!expired ttl now p.2) = false := by
          revert hpe
          cases !expired ttl now p.2 <;> simp
        have hfil : _cleanup_store ttl now (p :: rest) = _cleanup_store ttl now rest := by
          simp only [_cleanup_store, List.filter_cons, hpe2, Bool.false_eq_true, if_false]
        rw [hfil]
        exact ihh

/-- Claim C9: the sweep removes exactly the bundles whose age exceeds the
TTL: afterwards a get on an expired bundle's token is absent, and a get on
a live bundle's token returns the exact bundle inserted, unchanged. -/
theorem store_sweep_ttl (ttl now : ℚ) (store : List (String × Bundle))
    (tok : String) (b : Bundle)
    (hnd : (store.map Prod.fst).Nodup) (hget : sget store tok = some b) :
    (expired ttl now b = true ↔ now - b.ts.getD now > ttl) ∧
    (expired ttl now b = true → sget (_cleanup_store ttl now store) tok = none) ∧
    (expired ttl now b = false → sget (_cleanup_store ttl now store) tok = some b) := by
  have key := cleanup_sget ttl now store tok b hnd hget
  refine ⟨by simp [expired], ?_, ?_⟩
  · intro h
    rwa [if_pos h] at key
  · intro h
    rw [key, if_neg]
    rw [h]
    simp

/-- Claim C4: when the attachment step succeeds but the stamping step fails,
the embed handler reports the partial-embed failure with a response distinct
from the total-failure response (and from success), so the caller knows the
attachment is present while stamping did not occur. -/
theorem partial_embed_distinct (req : EmbedReq) (e : String)
    (hsize : _too_large req.contentLength = false)
    (hpdf : req.hasPdf = true) (hextra : req.hasExtra = true)
    (hpb : req.pdfBytes ≠ []) (heb : req.extraBytes ≠ [])
    (hatt : req.attachRaises = none)
    (himg : isImageName (pyLower (extra_name req)) (extra_mimetype req) = true)
    (hpages : req.numPages > 0)
    (hstamp : req.stampRaises = some e) :
    embed req = Resp.errJson 500 ("Embedded attachment but failed to stamp image: " ++ e) ∧
    (∀ e2 : String,
      Resp.errJson 500 ("Embedded attachment but failed to stamp image: " ++ e)
        ≠ Resp.errJson 500 ("Failed to embed attachment: " ++ e2)) ∧
    (∀ (out : Bytes) (nm mt : String),
      Resp.errJson 500 ("Embedded attachment but failed to stamp image: " ++ e)
        ≠ Resp.fileResp out nm mt) := by
  refine ⟨?_, ?_, ?_⟩
  · simp [embed, hsize, hpdf, hextra, hpb, heb, hatt, himg, hpages, hstamp]
  · intro e2 h
    injection h with h1 h2
    have h3 : some 'E' = some 'F' := congrArg (fun s => s.data.head?) h2
    simp at h3
  · intro out nm mt h
    exact Resp.noConfusion h

/-- Claim C6: the overlay compositor targets 30% of page width with height
from the aspect ratio, rescales from the 35%-of-page-height bound when that
height exceeds it, puts the bottom-left placement's lower-left corner at
(18, 18), and for a 600×800 page with a 2:1 image yields a 180×90 box. -/
theorem overlay_box_spec (imgW imgH pageW pageH : ℚ)
    (_hw : 0 < imgW) (_hh : 0 < imgH) :
    ((¬ imgH * (pageW * (0.30 : ℚ) / imgW) > pageH * (0.35 : ℚ)) →
      (make_image_overlay_pdf_box imgW imgH pageW pageH "bottom-left").w
          = pageW * (0.30 : ℚ) ∧
      (make_image_overlay_pdf_box imgW imgH pageW pageH "bottom-left").h
          = imgH * (pageW * (0.30 : ℚ) / imgW)) ∧
    (imgH * (pageW * (0.30 : ℚ) / imgW) > pageH * (0.35 : ℚ) →
      (make_image_overlay_pdf_box imgW imgH pageW pageH "bottom-left").w
          = imgW * (pageH * (0.35 : ℚ) / imgH) ∧
      (make_image_overlay_pdf_box imgW imgH pageW pageH "bottom-left").h
          = imgH * (pageH * (0.35 : ℚ) / imgH)) ∧
    (make_image_overlay_pdf_box imgW imgH pageW pageH "bottom-left").x = 18 ∧
    (make_image_overlay_pdf_box imgW imgH pageW pageH "bottom-left").y = 18 ∧
    make_image_overlay_pdf_box 200 100 600 800 "bottom-left" = ⟨18, 18, 180, 90⟩ := by
  refine ⟨?_, ?_, ?_, ?_, ?_⟩
  · intro hcond
    simp only [make_image_overlay_pdf_box, String.reduceEq, if_neg hcond, if_false, if_true]
    exact ⟨trivial, trivial⟩
  · intro hcond
    simp only [make_image_overlay_pdf_box, String.reduceEq, if_pos hcond, if_false, if_true]
    exact ⟨trivial, trivial⟩
  · simp only [make_image_overlay_pdf_box, String.reduceEq, if_false, if_true]
  · simp only [make_image_overlay_pdf_box, String.reduceEq, if_false, if_true]
  · have hc : ¬ ((100 : ℚ) * (600 * (0.30 : ℚ) / 200) > 800 * (0.35 : ℚ)) := by norm_num
    simp only [make_image_overlay_pdf_box, String.reduceEq, if_false, if_true, if_neg hc,
      Box.mk.injEq]
    norm_num

/-- Witness for claim C1's amended theorem at a concrete 1×1 image with a
2-byte payload. -/
theorem short_payload_no_preview_witness :
    ∃ r, processXObj pilOpenNone pngEncPx 2 3 "/Im1" wShortImg = some r ∧
      r.preview_mime = none ∧ r.preview_bytes = none ∧
      r.original_bytes = [1, 2] ∧
      ∀ (maxImages : Nat) (rest : List (String × Option XObj)) (acc : List ImgRec),
        3 < maxImages →
        scanXObjs pilOpenNone pngEncPx 2 maxImages (("/Im1", some wShortImg) :: rest) 3 acc
          = scanXObjs pilOpenNone pngEncPx 2 maxImages rest (3 + 1) (acc ++ [r]) :=
  short_payload_no_preview pilOpenNone pngEncPx 2 3 "/Im1" wShortImg [1, 2]
    rfl rfl (Or.inl rfl) rfl (by decide)

/-- Witness for claim C3's amended theorem on a concrete two-entry table. -/
theorem attachments_exact_extraction_witness :
    _read_attachments wReader3
        = wEntries.map (fun e => (entryName e.1, (entryPayload e.2).getD [])) ∧
    (_read_attachments wReader3).length = wEntries.length :=
  attachments_exact_extraction wReader3 wEntries rfl (by decide) (by decide)

/-- Witness for claim C4 on a concrete request whose stamping step raises. -/
theorem partial_embed_distinct_witness :
    embed wEmbedReq
        = Resp.errJson 500 ("Embedded attachment but failed to stamp image: " ++ "boom") ∧
    (∀ e2 : String,
      Resp.errJson 500 ("Embedded attachment but failed to stamp image: " ++ "boom")
        ≠ Resp.errJson 500 ("Failed to embed attachment: " ++ e2)) ∧
    (∀ (out : Bytes) (nm mt : String),
      Resp.errJson 500 ("Embedded attachment but failed to stamp image: " ++ "boom")
        ≠ Resp.fileResp out nm mt) :=
  partial_embed_distinct wEmbedReq "boom" (by decide) rfl rfl (by decide) (by decide)
    rfl (by rfl) (by decide) rfl

/-- Witness for claim C6 at the 600×800 page with a 200×100 image. -/
theorem overlay_box_spec_witness :
    ((¬ (100 : ℚ) * (600 * (0.30 : ℚ) / 200) > 800 * (0.35 : ℚ)) →
      (make_image_overlay_pdf_box 200 100 600 800 "bottom-left").w
          = 600 * (0.30 : ℚ) ∧
      (make_image_overlay_pdf_box 200 100 600 800 "bottom-left").h
          = 100 * (600 * (0.30 : ℚ) / 200)) ∧
    ((100 : ℚ) * (600 * (0.30 : ℚ) / 200) > 800 * (0.35 : ℚ) →
      (make_image_overlay_pdf_box 200 100 600 800 "bottom-left").w
          = 200 * (800 * (0.35 : ℚ) / 100) ∧
      (make_image_overlay_pdf_box 200 100 600 800 "bottom-left").h
          = 100 * (800 * (0.35 : ℚ) / 100)) ∧
    (make_image_overlay_pdf_box 200 100 600 800 "bottom-left").x = 18 ∧
    (make_image_overlay_pdf_box 200 100 600 800 "bottom-left").y = 18 ∧
    make_image_overlay_pdf_box 200 100 600 800 "bottom-left" = ⟨18, 18, 180, 90⟩ :=
  overlay_box_spec 200 100 600 800 (by norm_num) (by norm_num)

/-- Witness for claim C7 on a dictionary whose first present variant is /DOS. -/
theorem variant_priority_first_wins_witness :
    resolveStream wEFDict attachKeys = ((variants wEFDict).filterMap id).head? ∧
    ∀ (m : List (String × Bytes)) (a b : ArrElem) (rest : List ArrElem)
      (st : StreamObj) (bs : Bytes),
      b.filespec = SpecEF.ef (some wEFDict) →
      ((variants wEFDict).filterMap id).head? = some st →
      st.data = some bs →
      readPairs m (a :: b :: rest) = readPairs (dinsert m (entryName a) bs) rest :=
  variant_priority_first_wins wEFDict (by decide)

/-- Witness for claim C8: a raising entry is skipped and a missing table
yields the empty mapping. -/
theorem attachments_never_fail_witness :
    readPairs [] [⟨some "x", SpecEF.raises⟩, ⟨none, SpecEF.raises⟩,
        ⟨some "y", SpecEF.raises⟩,
        ⟨none, SpecEF.ef (some ⟨some ⟨true, some [9]⟩, none, none, none, none⟩)⟩]
      = readPairs [] [⟨some "y", SpecEF.raises⟩,
          ⟨none, SpecEF.ef (some ⟨some ⟨true, some [9]⟩, none, none, none, none⟩)⟩] ∧
    _read_attachments ⟨NTab.missing, none, []⟩ = [] :=
  ⟨attachments_never_fail.1 [] ⟨some "x", SpecEF.raises⟩ ⟨none, SpecEF.raises⟩
      [⟨some "y", SpecEF.raises⟩,
       ⟨none, SpecEF.ef (some ⟨some ⟨true, some [9]⟩, none, none, none, none⟩)⟩] rfl,
   attachments_never_fail.2.2.1 ⟨NTab.missing, none, []⟩ rfl⟩

/-- Witness for claim C9 at the default TTL with an expired bundle. -/
theorem store_sweep_ttl_witness :
    (expired STORE_TTL_SECONDS 1000 wBundleOld = true ↔
      (1000 : ℚ) - wBundleOld.ts.getD 1000 > STORE_TTL_SECONDS) ∧
    (expired STORE_TTL_SECONDS 1000 wBundleOld = true →
      sget (_cleanup_store STORE_TTL_SECONDS 1000 wStore) "t1" = none) ∧
    (expired STORE_TTL_SECONDS 1000 wBundleOld = false →
      sget (_cleanup_store STORE_TTL_SECONDS 1000 wStore) "t1" = some wBundleOld) :=
  store_sweep_ttl STORE_TTL_SECONDS 1000 wStore "t1" wBundleOld (by decide) (by decide)

/-- Witness for claim C10 on a 2×1 colour-space-free image with a 6-byte
payload. -/
theorem default_colorspace_rgb_witness :
    _colorspace wRGBImg.colorSpace = "/DeviceRGB" ∧
    channelsOf (_pil_mode_from_cs (_colorspace wRGBImg.colorSpace)) = 3 ∧
    ∃ r, processXObj pilOpenNone pngEncPx 0 0 "Im2" wRGBImg = some r ∧
      (r.preview_mime = some "image/png" ↔
        (([1, 2, 3, 4, 5, 6] : Bytes).length : Int)
          ≥ pyIntOr wRGBImg.width 0 * pyIntOr wRGBImg.height 0 * 3) :=
  default_colorspace_rgb pilOpenNone pngEncPx 0 0 "Im2" wRGBImg [1, 2, 3, 4, 5, 6]
    (Or.inl rfl) rfl rfl (Or.inr rfl) rfl (by decide) (by decide)

end PdfEmbedder
